import Mathlib

/-!
Verification development for the multi-led-grid service.

The embedding follows `src/main.py` and `src/text_to_led.py`. Python
dictionaries are modelled as insertion-ordered association lists (keys are
looked up by equality, assignment updates in place or appends at the end,
and iteration follows insertion order, which matches CPython semantics).
Python `int(...)` applied to a string is modelled by `pyInt?` (optional
sign followed by decimal digits; a failed conversion corresponds to the
`ValueError` Python raises). The `asyncio` calls performed by
`execute_distributed_command` are modelled as an explicit event trace:
a `call` event for each controller `do_command` invocation and a `sleep`
event for each `asyncio.sleep`. Sleep durations are modelled as rationals;
the source only compares them with zero and passes them through.
-/

namespace MultiLedGrid

/-- A Python runtime value, restricted to the shapes the service handles:
integers, strings, lists and dictionaries. -/
inductive PyVal where
  | vInt (n : Int)
  | vStr (s : String)
  | vList (l : List PyVal)
  | vDict (d : List (String × PyVal))

/-- Value of a decimal digit character, `none` for non-digits. -/
def digitVal? (c : Char) : Option Nat :=
  if c.isDigit then some (c.toNat - 48) else none

/-- Value of a non-empty all-digit character list, `none` otherwise. -/
def digitsVal? : List Char → Option Nat
  | [] => none
  | [c] => digitVal? c
  | c :: rest =>
    match digitVal? c, digitsVal? rest with
    | some d, some n => some (d * 10 ^ rest.length + n)
    | _, _ => none

/-- Model of Python `int(s)` on a string: optional sign then decimal
digits; `none` models the `ValueError` raised otherwise. -/
def pyInt? (s : String) : Option Int :=
  match s.toList with
  | '-' :: rest => (digitsVal? rest).map (fun n => -(n : Int))
  | '+' :: rest => (digitsVal? rest).map (fun n => (n : Int))
  | l => (digitsVal? l).map (fun n => (n : Int))

/-- Model of Python `int(v)` on a runtime value: integers pass through,
strings are parsed, lists and dicts raise `TypeError` (`none`). -/
def pyIntOf : PyVal → Option Int
  | .vInt n => some n
  | .vStr s => pyInt? s
  | .vList _ => none
  | .vDict _ => none

/-- Dictionary lookup, `d[k]` / `k in d`. -/
def lookupAssoc {β : Type} (m : List (String × β)) (k : String) : Option β :=
  match m with
  | [] => none
  | (k', v) :: rest => if k' = k then some v else lookupAssoc rest k

/-- Dictionary assignment `m[k] = v`: update in place or append. -/
def assocSet {β : Type} (m : List (String × β)) (k : String) (v : β) :
    List (String × β) :=
  match m with
  | [] => [(k, v)]
  | (k', v') :: rest =>
    if k' = k then (k', v) :: rest else (k', v') :: assocSet rest k v

/-- The linear scan of `index_ranges` in `execute_distributed_command`
(src/main.py lines 286-298): the first `(start, end)` with
`start ≤ i ≤ end` wins; returns its position and bounds. -/
def firstMatch (i : Int) : List (Int × Int) → Option (Nat × Int × Int)
  | [] => none
  | (s, e) :: rest =>
    if s ≤ i ∧ i ≤ e then some (0, s, e)
    else (firstMatch i rest).map (fun x => (x.1 + 1, x.2))

/-- `component_commands[component_idx][k] = v`, creating the inner dict
when `component_idx` is absent (src/main.py lines 292-296). -/
def outerSet {α : Type} (cc : List (Nat × List (String × α))) (j : Nat)
    (k : String) (v : α) : List (Nat × List (String × α)) :=
  match cc with
  | [] => [(j, [(k, v)])]
  | (j', m) :: rest =>
    if j' = j then (j', assocSet m k v) :: rest
    else (j', m) :: outerSet rest j k v

/-- One iteration of the partition loop of `execute_distributed_command`
(src/main.py lines 282-298): the payload key is converted with `int(...)`
(a failure is the `ValueError` Python raises, aborting the whole call),
scanned against the ranges, and the first matching range claims the entry
under local key `str(global_index - start)`; no match leaves the grouping
unchanged. -/
def groupEntryStep {α : Type} (ranges : List (Int × Int))
    (cc : List (Nat × List (String × α))) (k : String) (d : α) :
    Except String (List (Nat × List (String × α))) :=
  match pyInt? k with
  | none => .error ("invalid literal for int() with base 10: " ++ k)
  | some gi =>
    match firstMatch gi ranges with
    | none => .ok cc
    | some (j, s, _) => .ok (outerSet cc j (toString (gi - s)) d)

/-- The partition loop over the whole payload, with the accumulated
`component_commands` explicit. -/
def groupAux {α : Type} (ranges : List (Int × Int)) :
    List (String × α) → List (Nat × List (String × α)) →
    Except String (List (Nat × List (String × α)))
  | [], cc => .ok cc
  | (k, d) :: rest, cc =>
    match groupEntryStep ranges cc k d with
    | .error e => .error e
    | .ok cc' => groupAux ranges rest cc'

/-- The grouping phase of `execute_distributed_command`: partition the
global payload into per-component local payloads. -/
def groupPayload {α : Type} (payload : List (String × α))
    (ranges : List (Int × Int)) :
    Except String (List (Nat × List (String × α))) :=
  groupAux ranges payload []

/-- An observable event of the dispatch loop: a controller `do_command`
call or an `asyncio.sleep`. -/
inductive Event (α : Type) where
  | call (componentIdx : Nat) (commands : List (String × α))
  | sleep (t : ℚ)
deriving DecidableEq

/-- The dispatch loop of `execute_distributed_command` (src/main.py lines
305-314): visit the grouped commands in insertion order, skip empty
payloads, call the component (an out-of-range index is the `IndexError`
of `components[component_idx]`), and sleep after each call when
`sleep_time > 0`. Returns the events so far and an error when one stops
the loop. -/
def dispatchEvents {α : Type} (numComponents : Nat) (sleepTime : ℚ) :
    List (Nat × List (String × α)) → List (Event α) × Option String
  | [] => ([], none)
  | (j, cmds) :: rest =>
    if cmds.isEmpty then dispatchEvents numComponents sleepTime rest
    else if j < numComponents then
      let pre := Event.call j cmds ::
        (if 0 < sleepTime then [Event.sleep sleepTime] else [])
      let r := dispatchEvents numComponents sleepTime rest
      (pre ++ r.1, r.2)
    else ([], some "IndexError: list index out of range")

/-- `execute_distributed_command` (src/main.py lines 257-314): group the
payload by component, then dispatch sequentially. A partition error
(`int` failure) aborts before any controller call. -/
def execute_distributed_command {α : Type} (numComponents : Nat)
    (payload : List (String × α)) (ranges : List (Int × Int))
    (sleepTime : ℚ) : List (Event α) × Option String :=
  match groupPayload payload ranges with
  | .error e => ([], some e)
  | .ok cc => dispatchEvents numComponents sleepTime cc

/-- Component indices of the `call` events of a trace, in order. -/
def callIndices {α : Type} : List (Event α) → List Nat
  | [] => []
  | .call j _ :: rest => j :: callIndices rest
  | .sleep _ :: rest => callIndices rest

/-- Number of `sleep` events in a trace. -/
def countSleeps {α : Type} : List (Event α) → Nat
  | [] => 0
  | .sleep _ :: rest => countSleeps rest + 1
  | .call _ _ :: rest => countSleeps rest

/-- Number of `call` events in a trace. -/
def countCalls {α : Type} : List (Event α) → Nat
  | [] => 0
  | .call _ _ :: rest => countCalls rest + 1
  | .sleep _ :: rest => countCalls rest

/-- `_get_index_ranges` (src/main.py lines 172-185): first component gets
strips 0-7, a second gets 8 to `grid_width - 1`. -/
def get_index_ranges (numBoards : Nat) (gridWidth : Int) : List (Int × Int) :=
  (if 1 ≤ numBoards then [((0 : Int), (7 : Int))] else []) ++
    (if 2 ≤ numBoards then [((8 : Int), gridWidth - 1)] else [])

/-- `create_clear_payload` (src/main.py lines 317-335): one
`set_animation solid black` command per strip, keys `"0".."h-1"`. -/
def create_clear_payload (gridHeight : Int) : List (String × PyVal) :=
  (List.range gridHeight.toNat).map (fun strip =>
    (toString strip,
      PyVal.vDict [("set_animation", PyVal.vStr "solid"),
                   ("color", PyVal.vList [PyVal.vInt 0, PyVal.vInt 0, PyVal.vInt 0])]))

/-- The result of `_parse_display_command` (src/main.py lines 163-170). -/
structure Params where
  x_position : Int
  y_position : Int
  x_offset : Int
  y_offset : Int
  color : Int × Int × Int
  rotation : Int
deriving DecidableEq

/-- src/main.py lines 120-127: `x_position` and `y_position` are required
and must convert with `int(...)`. -/
def parsePositions (cd : List (String × PyVal)) : Except String (Int × Int) :=
  match lookupAssoc cd "x_position", lookupAssoc cd "y_position" with
  | some xv, some yv =>
    match pyIntOf xv, pyIntOf yv with
    | some x, some y => .ok (x, y)
    | _, _ => .error "x_position and y_position must be numeric values"
  | _, _ => .error "x_position and y_position are required"

/-- src/main.py lines 129-137: offsets default to `(0, 0)` unless BOTH
keys are present; when both are present each must convert with `int`. -/
def parseOffsets (cd : List (String × PyVal)) : Except String (Int × Int) :=
  match lookupAssoc cd "x_offset", lookupAssoc cd "y_offset" with
  | some xv, some yv =>
    match pyIntOf xv, pyIntOf yv with
    | some x, some y => .ok (x, y)
    | _, _ => .error "x_offset and y_offset must be numeric values"
  | _, _ => .ok (0, 0)

/-- src/main.py lines 147-150: convert the three components with
`int(...)` and validate each lies in `[0, 255]`; a conversion failure or
an out-of-range component is rejected (re-raised by line 153 with the
`Invalid color format` prefix), never clamped. -/
def checkColorTriple (a b c : PyVal) : Except String (Int × Int × Int) :=
  match pyIntOf a, pyIntOf b, pyIntOf c with
  | some r, some g, some bl =>
    if 0 ≤ r ∧ r ≤ 255 ∧ 0 ≤ g ∧ g ≤ 255 ∧ 0 ≤ bl ∧ bl ≤ 255 then
      .ok (r, g, bl)
    else .error "Invalid color format: color values must be between 0 and 255"
  | _, _, _ => .error "Invalid color format: int() conversion failed"

/-- src/main.py lines 139-153: color defaults to white; otherwise it must
be a 3-element list of `int`-convertible values, each in `[0, 255]`, or
the request is rejected with an `Invalid color format` error. -/
def parseColor (cd : List (String × PyVal)) : Except String (Int × Int × Int) :=
  match lookupAssoc cd "color" with
  | none => .ok (255, 255, 255)
  | some (.vList [a, b, c]) => checkColorTriple a b c
  | some _ => .error "Invalid color format: color must be a list or tuple of 3 values"

/-- src/main.py lines 155-161: rotation defaults to 0 and is only passed
through `int(...)`; no membership check against 90/180/270 is made. -/
def parseRotationField (cd : List (String × PyVal)) : Except String Int :=
  match lookupAssoc cd "rotation" with
  | none => .ok 0
  | some rv =>
    match pyIntOf rv with
    | some r => .ok r
    | none => .error "rotation must be a numeric value"

/-- `_parse_display_command` (src/main.py lines 113-170): positions, then
offsets, then color, then rotation; the first failure aborts. -/
def parse_display_command (cd : List (String × PyVal)) : Except String Params := do
  let pos ← parsePositions cd
  let offs ← parseOffsets cd
  let col ← parseColor cd
  let rot ← parseRotationField cd
  return { x_position := pos.1, y_position := pos.2,
           x_offset := offs.1, y_offset := offs.2,
           color := col, rotation := rot }

/-- `_display_text` (src/main.py lines 187-216): dispatch a clear payload,
then dispatch the payload produced by the text-to-LED converter. The
converter is the external rasterization capability here, passed in as
`renderPayload`. Traces concatenate; an error in the clear dispatch stops
before the text dispatch. -/
def displayText (numBoards : Nat) (gridWidth gridHeight : Int) (sleepTime : ℚ)
    (renderPayload : String → Params → List (String × PyVal))
    (text : String) (params : Params) : List (Event PyVal) × Option String :=
  let ranges := get_index_ranges numBoards gridWidth
  let r1 := execute_distributed_command numBoards (create_clear_payload gridHeight) ranges sleepTime
  match r1.2 with
  | some e => (r1.1, some e)
  | none =>
    let r2 := execute_distributed_command numBoards (renderPayload text params) ranges sleepTime
    (r1.1 ++ r2.1, r2.2)

/-- Model of Python `str(v)` restricted to the string case used by the
text branch as the text argument. -/
def pyStrOf : PyVal → String
  | .vStr s => s
  | _ => ""

/-- `do_command` (src/main.py lines 218-254): a `"text"` key routes to the
text branch (parse, then require `"text"` inside, then display); otherwise
a `"time"` key routes to the time branch (parse, then display the
externally supplied wall-clock text `timeText`); ANY other command —
including `{"clear": ...}`, whose branch is commented out in the source —
is passed through verbatim to `execute_distributed_command`. The result is
the event trace and `none` on success (`{"success": True}`) or the raised
error message. -/
def do_command (numBoards : Nat) (gridWidth gridHeight : Int) (sleepTime : ℚ)
    (timeText : String)
    (renderPayload : String → Params → List (String × PyVal))
    (command : List (String × PyVal)) : List (Event PyVal) × Option String :=
  match lookupAssoc command "text" with
  | some tc =>
    (match tc with
     | .vDict tcd =>
       (match parse_display_command tcd with
        | .error e => ([], some e)
        | .ok params =>
          match lookupAssoc tcd "text" with
          | none => ([], some "text is required in text command")
          | some tv =>
            displayText numBoards gridWidth gridHeight sleepTime renderPayload (pyStrOf tv) params)
     | _ => ([], some "TypeError: argument is not a dict"))
  | none =>
    match lookupAssoc command "time" with
    | some tc =>
      (match tc with
       | .vDict tcd =>
         (match parse_display_command tcd with
          | .error e => ([], some e)
          | .ok params =>
            displayText numBoards gridWidth gridHeight sleepTime renderPayload timeText params)
       | _ => ([], some "TypeError: argument is not a dict"))
    | none =>
      let ranges := get_index_ranges numBoards gridWidth
      execute_distributed_command numBoards command ranges sleepTime

/-- An RGB triple as read back from the rendered image array. -/
abbrev Color := Int × Int × Int

/-- A raster buffer in row-major order: `img[y][x]` is the pixel color. -/
abbrev Image := List (List Color)

/-- PIL `ROTATE_90` (90° counterclockwise) on a row-major buffer. -/
def rotateCCW (img : Image) : Image := (List.transpose img).reverse

/-- PIL `ROTATE_270` (90° clockwise) on a row-major buffer. -/
def rotateCW (img : Image) : Image := List.transpose img.reverse

/-- PIL `ROTATE_180` on a row-major buffer. -/
def rotate180 (img : Image) : Image := (img.map List.reverse).reverse

/-- Read a pixel, black `(0,0,0)` outside the buffer (the background of
the grid image the source pastes onto). -/
def getPixel (img : Image) (x y : Int) : Color :=
  if 0 ≤ x ∧ 0 ≤ y then
    (((img.get? y.toNat).getD []).get? x.toNat).getD (0, 0, 0)
  else (0, 0, 0)

/-- Step 4 of `text_to_led_payload` (src/text_to_led.py lines 147-149):
paste the temp buffer onto a black grid-sized buffer with its top-left at
`(xp, yp)`; source pixels outside the destination are clipped. -/
def pasteOnBlack (gw gh : Nat) (src : Image) (xp yp : Int) : Image :=
  (List.range gh).map fun y => (List.range gw).map fun x =>
    getPixel src ((x : Int) - xp) ((y : Int) - yp)

/-- The two wire command shapes of §3 of the spec, as built by the code. -/
inductive Cmd where
  | set_pixel_colors (pixels : List (String × List Int))
  | set_animation (anim : String) (color : List Int)
deriving DecidableEq

/-- `payload[strip]["set_pixel_colors"][led] = color` on an existing
entry. -/
def setPixelInCmd (c : Cmd) (led : String) (col : List Int) : Cmd :=
  match c with
  | .set_pixel_colors m => .set_pixel_colors (assocSet m led col)
  | .set_animation a co => .set_animation a co

/-- src/text_to_led.py lines 160-162: create the strip entry when absent,
then assign the pixel color under the LED key. -/
def addPixel (p : List (String × Cmd)) (strip led : String) (col : List Int) :
    List (String × Cmd) :=
  match p with
  | [] => [(strip, .set_pixel_colors [(led, col)])]
  | (k, v) :: rest =>
    if k = strip then (k, setPixelInCmd v led col) :: rest
    else (k, v) :: addPixel rest strip led col

/-- Step 5 of `text_to_led_payload` (src/text_to_led.py lines 151-163):
scan the buffer in row-major order and record every non-black pixel under
key `str(y)` as `{str(x): [r,g,b]}`. -/
def extractPayload (img : Image) : List (String × Cmd) :=
  img.enum.foldl (fun p yrow =>
    yrow.2.enum.foldl (fun p xc =>
      if xc.2 ≠ ((0 : Int), (0 : Int), (0 : Int)) then
        addPixel p (toString yrow.1) (toString xc.1) [xc.2.1, xc.2.2.1, xc.2.2.2]
      else p) p) []

/-- Whether any `set_pixel_colors` entry of a command is exactly black. -/
def cmdHasBlack : Cmd → Bool
  | .set_pixel_colors m => m.any (fun kv => decide (kv.2 = [0, 0, 0]))
  | .set_animation _ _ => false

/-- Whether a payload carries an exactly-black pixel entry. -/
def hasBlackEntry (p : List (String × Cmd)) : Bool :=
  p.any (fun kv => cmdHasBlack kv.2)

/-- `text_to_led_payload` (src/text_to_led.py lines 110-163). Steps 1-2
(text measurement and glyph painting with PIL) are the external
rasterization capability, passed in as `renderText`; step 3 rotates the
temp buffer only for rotation exactly 90, 180 or 270 (PIL transpose
constants are inverted because PIL's ROTATE_n is counterclockwise); steps
4-5 paste onto the black grid buffer and extract the sparse payload. -/
def text_to_led_payload (renderText : String → Int → Int → Color → Image)
    (gw gh : Nat) (text : String) (xo yo : Int) (color : Color)
    (rot : Int) (xp yp : Int) : List (String × Cmd) :=
  let temp := renderText text xo yo color
  let temp2 :=
    if rot = 90 then rotateCW temp
    else if rot = 180 then rotate180 temp
    else if rot = 270 then rotateCCW temp
    else temp
  extractPayload (pasteOnBlack gw gh temp2 xp yp)

/-! Helper lemmas about the range scan. -/

theorem firstMatch_isSome {i : Int} {ranges : List (Int × Int)}
    (hm : ∃ r ∈ ranges, r.1 ≤ i ∧ i ≤ r.2) : (firstMatch i ranges).isSome := by
  induction ranges with
  | nil => simp at hm
  | cons hd tl ih =>
    obtain ⟨s0, e0⟩ := hd
    by_cases hc : s0 ≤ i ∧ i ≤ e0
    · simp [firstMatch, hc]
    · have htl : ∃ r ∈ tl, r.1 ≤ i ∧ i ≤ r.2 := by
        obtain ⟨r, hr, hri⟩ := hm
        rcases List.mem_cons.mp hr with h | h
        · subst h; exact absurd hri hc
        · exact ⟨r, h, hri⟩
      have h2 := ih htl
      simp only [firstMatch, if_neg hc]
      cases hfm : firstMatch i tl with
      | none => rw [hfm] at h2; simp at h2
      | some x => simp

theorem firstMatch_spec {i : Int} {ranges : List (Int × Int)} {j : Nat} {s e : Int}
    (h : firstMatch i ranges = some (j, s, e)) :
    ranges.get? j = some (s, e) ∧ s ≤ i ∧ i ≤ e ∧
      ∀ j' s' e', j' < j → ranges.get? j' = some (s', e') → ¬(s' ≤ i ∧ i ≤ e') := by
  induction ranges generalizing j with
  | nil => simp [firstMatch] at h
  | cons hd tl ih =>
    obtain ⟨s0, e0⟩ := hd
    by_cases hc : s0 ≤ i ∧ i ≤ e0
    · simp only [firstMatch, if_pos hc, Option.some.injEq, Prod.mk.injEq] at h
      obtain ⟨hj, hs, he⟩ := h
      subst hj; subst hs; subst he
      exact ⟨rfl, hc.1, hc.2, fun j' s' e' hj' _ => absurd hj' (Nat.not_lt_zero j')⟩
    · simp only [firstMatch, if_neg hc] at h
      cases hfm : firstMatch i tl with
      | none => rw [hfm] at h; simp at h
      | some x =>
        obtain ⟨j1, s1, e1⟩ := x
        rw [hfm] at h
        simp only [Option.map, Option.some.injEq, Prod.mk.injEq] at h
        obtain ⟨hj, hs, he⟩ := h
        subst hj; subst hs; subst he
        obtain ⟨g1, g2, g3, g4⟩ := ih hfm
        refine ⟨g1, g2, g3, ?_⟩
        intro j' s' e' hj' hget
        cases j' with
        | zero =>
          simp only [List.get?] at hget
          obtain ⟨rfl, rfl⟩ := (Prod.mk.injEq _ _ _ _).mp (Option.some.injEq _ _ |>.mp hget)
          exact hc
        | succ j2 =>
          simp only [List.get?] at hget
          exact g4 j2 s' e' (Nat.lt_of_succ_lt_succ hj') hget

/-- C1: for ranges of non-negative `start ≤ end` and a payload entry whose
global index `i` lies in some range, the partition phase of
`execute_distributed_command` assigns the entry to the first range in list
order containing `i`, under local key `str(i - start)`, and to no other
component: the grouped result for that entry is exactly the singleton
`[(j, [(str(i - start), data)])]`. -/
theorem c1_partition_first_range {α : Type} (ranges : List (Int × Int))
    (k : String) (d : α) (i : Int)
    (hr : ∀ r ∈ ranges, 0 ≤ r.1 ∧ r.1 ≤ r.2)
    (hk : pyInt? k = some i)
    (hm : ∃ r ∈ ranges, r.1 ≤ i ∧ i ≤ r.2) :
    ∃ j s e, firstMatch i ranges = some (j, s, e) ∧
      ranges.get? j = some (s, e) ∧ s ≤ i ∧ i ≤ e ∧
      (∀ j' s' e', j' < j → ranges.get? j' = some (s', e') → ¬(s' ≤ i ∧ i ≤ e')) ∧
      groupPayload [(k, d)] ranges = .ok [(j, [(toString (i - s), d)])] := by
  have hs := firstMatch_isSome hm
  rw [Option.isSome_iff_exists] at hs
  obtain ⟨⟨j, s, e⟩, hfm⟩ := hs
  obtain ⟨h1, h2, h3, h4⟩ := firstMatch_spec hfm
  exact ⟨j, s, e, hfm, h1, h2, h3, h4,
    by simp [groupPayload, groupAux, groupEntryStep, hk, hfm, outerSet]⟩

/-- Witness for C1 at global index 9 against ranges [(0,7), (8,15)]:
the entry lands on component 1 with local key "1" and nowhere else. -/
theorem c1_partition_first_range_witness :
    ∃ j s e, firstMatch 9 [((0 : Int), (7 : Int)), (8, 15)] = some (j, s, e) ∧
      [((0 : Int), (7 : Int)), (8, 15)].get? j = some (s, e) ∧ s ≤ 9 ∧ (9 : Int) ≤ e ∧
      (∀ j' s' e', j' < j →
        [((0 : Int), (7 : Int)), (8, 15)].get? j' = some (s', e') →
        ¬(s' ≤ 9 ∧ (9 : Int) ≤ e')) ∧
      groupPayload [("9", (0 : Nat))] [((0 : Int), (7 : Int)), (8, 15)] =
        .ok [(j, [(toString ((9 : Int) - s), (0 : Nat))])] :=
  c1_partition_first_range [((0 : Int), (7 : Int)), (8, 15)] "9" 0 9
    (by decide) (by decide) ⟨(8, 15), by simp, by decide⟩

theorem firstMatch_none {i : Int} {ranges : List (Int × Int)}
    (h : ∀ r ∈ ranges, ¬(r.1 ≤ i ∧ i ≤ r.2)) : firstMatch i ranges = none := by
  induction ranges with
  | nil => rfl
  | cons hd tl ih =>
    obtain ⟨s0, e0⟩ := hd
    have hc : ¬(s0 ≤ i ∧ i ≤ e0) := h (s0, e0) (List.mem_cons_self _ _)
    simp only [firstMatch, if_neg hc]
    rw [ih (fun r hr => h r (List.mem_cons_of_mem _ hr))]
    rfl

theorem groupAux_drop {α : Type} (ranges : List (Int × Int)) (k : String) (d : α)
    (i : Int) (hk : pyInt? k = some i) (hfm : firstMatch i ranges = none) :
    ∀ (pre post : List (String × α)) (cc : List (Nat × List (String × α))),
      groupAux ranges (pre ++ (k, d) :: post) cc = groupAux ranges (pre ++ post) cc := by
  intro pre
  induction pre with
  | nil => intro post cc; simp [groupAux, groupEntryStep, hk, hfm]
  | cons hd tl ih =>
    intro post cc
    obtain ⟨k', d'⟩ := hd
    simp only [List.cons_append, groupAux]
    cases hstep : groupEntryStep ranges cc k' d' with
    | error e => rfl
    | ok cc' => exact ih post cc'

/-- C2: a payload entry whose global index parses but lies outside every
declared range is silently dropped by `execute_distributed_command`: the
run with the entry is identical (same controller calls, same sleeps, same
success/error outcome) to the run without it, so the entry reaches no
controller and raises no error. -/
theorem c2_outside_ranges_dropped {α : Type} (numComponents : Nat) (sleepTime : ℚ)
    (ranges : List (Int × Int)) (pre post : List (String × α)) (k : String)
    (d : α) (i : Int)
    (hk : pyInt? k = some i)
    (hout : ∀ r ∈ ranges, ¬(r.1 ≤ i ∧ i ≤ r.2)) :
    execute_distributed_command numComponents (pre ++ (k, d) :: post) ranges sleepTime =
      execute_distributed_command numComponents (pre ++ post) ranges sleepTime := by
  have hfm := firstMatch_none hout
  unfold execute_distributed_command groupPayload
  rw [groupAux_drop ranges k d i hk hfm pre post []]

/-- Witness for C2: global index 99 is outside [(0,7), (8,15)]; the
one-entry payload behaves exactly like the empty payload. -/
theorem c2_outside_ranges_dropped_witness :
    execute_distributed_command 2 ([] ++ ("99", (0 : Nat)) :: [])
        [((0 : Int), (7 : Int)), (8, 15)] 1 =
      execute_distributed_command 2 ([] ++ [])
        [((0 : Int), (7 : Int)), (8, 15)] 1 :=
  c2_outside_ranges_dropped 2 1 [((0 : Int), (7 : Int)), (8, 15)] [] [] "99" 0 99
    (by decide) (by decide)

theorem dispatch_sleep_per_call {α : Type} (n : Nat) (t : ℚ) (ht : 0 < t) :
    ∀ cc : List (Nat × List (String × α)),
      countSleeps (dispatchEvents n t cc).1 = countCalls (dispatchEvents n t cc).1 := by
  intro cc
  induction cc with
  | nil => rfl
  | cons hd rest ih =>
    obtain ⟨j, cmds⟩ := hd
    simp only [dispatchEvents]
    by_cases he : cmds.isEmpty
    · rw [if_pos he]; exact ih
    · rw [if_neg he]
      by_cases hj : j < n
      · rw [if_pos hj]
        simp only [if_pos ht]
        simp [countSleeps, countCalls, ih]
      · rw [if_neg hj]; rfl

/-- C3, counterexample: a sequential dispatch of two non-empty controller
payloads with settle delay D = 1 produces the trace
call 0, sleep, call 1, sleep — two settle delays, one of them after the
last controller's command, not exactly one as claimed. -/
theorem c3_counterexample :
    execute_distributed_command 2 [("0", (0 : Nat)), ("8", (0 : Nat))]
        [((0 : Int), (7 : Int)), (8, 15)] 1 =
      ([Event.call 0 [("0", 0)], Event.sleep 1, Event.call 1 [("0", 0)], Event.sleep 1],
        none) ∧
    countSleeps
      (execute_distributed_command 2 [("0", (0 : Nat)), ("8", (0 : Nat))]
        [((0 : Int), (7 : Int)), (8, 15)] 1).1 ≠ 1 := by
  constructor
  · rfl
  · decide

/-- C3 as amended: `execute_distributed_command` sleeps D after every
non-empty controller command, including the last: whenever D > 0 the trace
contains exactly as many settle delays as controller calls (so 2 delays
for 2 non-empty controller payloads, one between the controllers and one
after the last). -/
theorem c3_sleep_after_every_call {α : Type} (n : Nat)
    (payload : List (String × α)) (ranges : List (Int × Int)) (t : ℚ)
    (ht : 0 < t) :
    countSleeps (execute_distributed_command n payload ranges t).1 =
      countCalls (execute_distributed_command n payload ranges t).1 := by
  unfold execute_distributed_command
  cases groupPayload payload ranges with
  | error e => rfl
  | ok cc => exact dispatch_sleep_per_call n t ht cc

/-- Witness for the amended C3 at the two-controller dispatch with D = 1. -/
theorem c3_sleep_after_every_call_witness :
    countSleeps
        (execute_distributed_command 2 [("0", (0 : Nat)), ("8", (0 : Nat))]
          [((0 : Int), (7 : Int)), (8, 15)] 1).1 =
      countCalls
        (execute_distributed_command 2 [("0", (0 : Nat)), ("8", (0 : Nat))]
          [((0 : Int), (7 : Int)), (8, 15)] 1).1 :=
  c3_sleep_after_every_call 2 [("0", 0), ("8", 0)]
    [((0 : Int), (7 : Int)), (8, 15)] 1 (by norm_num)

/-- The component claimed by each payload entry, in payload enumeration
order (unmatched and unparsed entries contribute nothing). -/
def assignedComponents {α : Type} (payload : List (String × α))
    (ranges : List (Int × Int)) : List Nat :=
  payload.filterMap (fun kd => (pyInt? kd.1).bind
    (fun i => (firstMatch i ranges).map (fun x => x.1)))

/-- First occurrences of a list, keeping enumeration order, with the
already-seen elements explicit. -/
def firstOccurAux (seen : List Nat) : List Nat → List Nat
  | [] => []
  | x :: xs =>
    if x ∈ seen then firstOccurAux seen xs
    else x :: firstOccurAux (x :: seen) xs

/-- First occurrences of a list, keeping enumeration order. -/
def firstOccurrences (l : List Nat) : List Nat := firstOccurAux [] l

/-- Component indices present in the grouped commands, in insertion
order. -/
def componentKeys {α : Type} (cc : List (Nat × List (String × α))) : List Nat :=
  cc.map Prod.fst

theorem firstOccurAux_congr (s1 s2 : List Nat) (h : ∀ x, x ∈ s1 ↔ x ∈ s2) :
    ∀ l, firstOccurAux s1 l = firstOccurAux s2 l := by
  intro l
  induction l generalizing s1 s2 with
  | nil => rfl
  | cons x xs ih =>
    simp only [firstOccurAux]
    by_cases hx : x ∈ s1
    · rw [if_pos hx, if_pos ((h x).mp hx)]
      exact ih s1 s2 h
    · rw [if_neg hx, if_neg (fun hc => hx ((h x).mpr hc))]
      congr 1
      exact ih (x :: s1) (x :: s2) (fun y => by simp [List.mem_cons, h y])

theorem componentKeys_outerSet {α : Type} (cc : List (Nat × List (String × α)))
    (j : Nat) (k : String) (v : α) :
    componentKeys (outerSet cc j k v) =
      if j ∈ componentKeys cc then componentKeys cc else componentKeys cc ++ [j] := by
  induction cc with
  | nil => simp [outerSet, componentKeys]
  | cons hd rest ih =>
    obtain ⟨j', m⟩ := hd
    by_cases hj : j' = j
    · subst hj
      simp [outerSet, componentKeys]
    · simp only [outerSet, if_neg hj, componentKeys, List.map_cons]
      simp only [componentKeys] at ih
      rw [ih]
      have : (j ∈ j' :: List.map Prod.fst rest) ↔ (j ∈ List.map Prod.fst rest) := by
        constructor
        · intro hc
          rcases List.mem_cons.mp hc with hcc | hcc
          · exact absurd hcc.symm hj
          · exact hcc
        · exact List.mem_cons_of_mem _
      by_cases hmem : j ∈ List.map Prod.fst rest
      · simp [hmem, this]
      · simp only [hmem, if_neg]
        rw [if_neg (fun hc => hmem (this.mp hc))]
        simp

theorem groupAux_keys {α : Type} (ranges : List (Int × Int)) :
    ∀ (payload : List (String × α)) (cc0 cc1 : List (Nat × List (String × α))),
      groupAux ranges payload cc0 = .ok cc1 →
      componentKeys cc1 =
        componentKeys cc0 ++
          firstOccurAux (componentKeys cc0) (assignedComponents payload ranges) := by
  intro payload
  induction payload with
  | nil =>
    intro cc0 cc1 h
    simp only [groupAux] at h
    cases h
    simp [assignedComponents, firstOccurAux]
  | cons hd rest ih =>
    intro cc0 cc1 h
    obtain ⟨k, d⟩ := hd
    simp only [groupAux] at h
    cases hstep : groupEntryStep ranges cc0 k d with
    | error e => rw [hstep] at h; simp at h
    | ok cc' =>
      rw [hstep] at h
      simp only at h
      have hrest := ih cc' cc1 h
      simp only [groupEntryStep] at hstep
      cases hpk : pyInt? k with
      | none => rw [hpk] at hstep; simp at hstep
      | some gi =>
        rw [hpk] at hstep
        simp only at hstep
        cases hfm : firstMatch gi ranges with
        | none =>
          rw [hfm] at hstep
          simp only [Except.ok.injEq] at hstep
          subst hstep
          rw [hrest]
          simp [assignedComponents, hpk, hfm, firstOccurAux]
        | some x =>
          obtain ⟨j, s, e⟩ := x
          rw [hfm] at hstep
          simp only [Except.ok.injEq] at hstep
          subst hstep
          rw [hrest, componentKeys_outerSet]
          have hassigned :
              assignedComponents ((k, d) :: rest) ranges =
                j :: assignedComponents rest ranges := by
            simp [assignedComponents, hpk, hfm]
          rw [hassigned]
          by_cases hmem : j ∈ componentKeys cc0
          · rw [if_pos hmem]
            simp only [firstOccurAux, if_pos hmem]
          · rw [if_neg hmem]
            simp only [firstOccurAux, if_neg hmem]
            have hcongr := firstOccurAux_congr
              (componentKeys cc0 ++ [j]) (j :: componentKeys cc0)
              (fun x => by simp [List.mem_append, List.mem_cons, or_comm])
              (assignedComponents rest ranges)
            rw [hcongr]
            simp

theorem assocSet_ne_nil {α : Type} (m : List (String × α)) (k : String) (v : α) :
    assocSet m k v ≠ [] := by
  cases m with
  | nil => simp [assocSet]
  | cons hd rest =>
    obtain ⟨k', v'⟩ := hd
    by_cases h : k' = k
    · simp [assocSet, h]
    · simp [assocSet, h]

theorem outerSet_values_ne_nil {α : Type} {cc : List (Nat × List (String × α))}
    (hcc : ∀ e ∈ cc, e.2 ≠ []) (j : Nat) (k : String) (v : α) :
    ∀ e ∈ outerSet cc j k v, e.2 ≠ [] := by
  induction cc with
  | nil =>
    intro e he
    simp [outerSet] at he
    subst he
    simp
  | cons hd rest ih =>
    obtain ⟨j', m⟩ := hd
    intro e he
    by_cases hj : j' = j
    · subst hj
      simp only [outerSet, if_pos rfl] at he
      rcases List.mem_cons.mp he with h | h
      · subst h; exact assocSet_ne_nil m k v
      · exact hcc e (List.mem_cons_of_mem _ h)
    · simp only [outerSet, if_neg hj] at he
      rcases List.mem_cons.mp he with h | h
      · subst h; exact hcc (j', m) (List.mem_cons_self _ _)
      · exact ih (fun e' he' => hcc e' (List.mem_cons_of_mem _ he')) e h

theorem groupAux_values_ne_nil {α : Type} (ranges : List (Int × Int)) :
    ∀ (payload : List (String × α)) (cc0 cc1 : List (Nat × List (String × α))),
      (∀ e ∈ cc0, e.2 ≠ []) → groupAux ranges payload cc0 = .ok cc1 →
      ∀ e ∈ cc1, e.2 ≠ [] := by
  intro payload
  induction payload with
  | nil =>
    intro cc0 cc1 hcc h
    simp only [groupAux] at h
    cases h
    exact hcc
  | cons hd rest ih =>
    intro cc0 cc1 hcc h
    obtain ⟨k, d⟩ := hd
    simp only [groupAux] at h
    cases hstep : groupEntryStep ranges cc0 k d with
    | error e => rw [hstep] at h; simp at h
    | ok cc' =>
      rw [hstep] at h
      simp only at h
      refine ih cc' cc1 ?_ h
      simp only [groupEntryStep] at hstep
      cases hpk : pyInt? k with
      | none => rw [hpk] at hstep; simp at hstep
      | some gi =>
        rw [hpk] at hstep
        simp only at hstep
        cases hfm : firstMatch gi ranges with
        | none =>
          rw [hfm] at hstep
          simp only [Except.ok.injEq] at hstep
          subst hstep
          exact hcc
        | some x =>
          obtain ⟨j, s, e⟩ := x
          rw [hfm] at hstep
          simp only [Except.ok.injEq] at hstep
          subst hstep
          exact outerSet_values_ne_nil hcc j _ d

theorem dispatch_call_order {α : Type} (n : Nat) (t : ℚ) :
    ∀ (cc : List (Nat × List (String × α))) (evs : List (Event α)),
      (∀ e ∈ cc, e.2 ≠ []) → dispatchEvents n t cc = (evs, none) →
      callIndices evs = componentKeys cc := by
  intro cc
  induction cc with
  | nil =>
    intro evs _ h
    simp only [dispatchEvents, Prod.mk.injEq] at h
    rw [← h.1]
    rfl
  | cons hd rest ih =>
    intro evs hcc h
    obtain ⟨j, cmds⟩ := hd
    have hne : cmds ≠ [] := hcc (j, cmds) (List.mem_cons_self _ _)
    have hemp : ¬cmds.isEmpty := by
      cases cmds with
      | nil => exact absurd rfl hne
      | cons a b => simp
    simp only [dispatchEvents, if_neg hemp] at h
    by_cases hj : j < n
    · rw [if_pos hj] at h
      simp only [Prod.mk.injEq] at h
      obtain ⟨hevs, herr⟩ := h
      have hrest := ih (dispatchEvents n t rest).1
        (fun e he => hcc e (List.mem_cons_of_mem _ he))
        (by rw [← herr])
      rw [← hevs]
      by_cases ht : 0 < t
      · simp only [if_pos ht]
        simp [callIndices, hrest, componentKeys]
      · simp only [if_neg ht]
        simp [callIndices, hrest, componentKeys]
    · rw [if_neg hj] at h
      simp at h

/-- C4, counterexample: with ranges [(0,7), (8,15)] and the payload
enumerated as global index 8 before global index 0, the dispatch calls
controller 1 before controller 0 — not ascending range order. -/
theorem c4_counterexample :
    callIndices
        (execute_distributed_command 2 [("8", (0 : Nat)), ("0", (0 : Nat))]
          [((0 : Int), (7 : Int)), (8, 15)] 0).1 = [1, 0] := by
  rfl

/-- C4 as amended: `execute_distributed_command` issues per-controller
commands in the order in which each controller's first payload entry
appears during payload enumeration (the insertion order of the grouped
command dict), not necessarily in the declaration order of `ranges`: the
controllers called in a successful run are exactly the first occurrences
of the components claimed by the payload's entries, in payload order. -/
theorem c4_call_order_first_occurrence {α : Type} (n : Nat)
    (payload : List (String × α)) (ranges : List (Int × Int)) (t : ℚ)
    (evs : List (Event α))
    (h : execute_distributed_command n payload ranges t = (evs, none)) :
    callIndices evs = firstOccurrences (assignedComponents payload ranges) := by
  unfold execute_distributed_command at h
  cases hg : groupPayload payload ranges with
  | error e => rw [hg] at h; simp at h
  | ok cc =>
    rw [hg] at h
    simp only at h
    unfold groupPayload at hg
    have hkeys := groupAux_keys ranges payload [] cc hg
    have hne := groupAux_values_ne_nil ranges payload [] cc (by simp) hg
    have hcall := dispatch_call_order n t cc evs hne h
    rw [hcall, hkeys]
    simp [componentKeys, firstOccurrences]

/-- Witness for the amended C4: payload order [8, 0] yields calls to
controller 1 then controller 0, matching first-occurrence order. -/
theorem c4_call_order_first_occurrence_witness :
    callIndices
        [Event.call 1 [("0", (0 : Nat))], Event.call 0 [("0", (0 : Nat))]] =
      firstOccurrences
        (assignedComponents [("8", (0 : Nat)), ("0", (0 : Nat))]
          [((0 : Int), (7 : Int)), (8, 15)]) :=
  c4_call_order_first_occurrence 2 [("8", 0), ("0", 0)]
    [((0 : Int), (7 : Int)), (8, 15)] 0
    [Event.call 1 [("0", 0)], Event.call 0 [("0", 0)]] (by rfl)

theorem foldl_preserve {β γ : Type} (P : β → Prop) (f : β → γ → β)
    (hstep : ∀ b c, P b → P (f b c)) :
    ∀ (l : List γ) (b : β), P b → P (l.foldl f b) := by
  intro l
  induction l with
  | nil => intro b hb; exact hb
  | cons x xs ih => intro b hb; exact ih (f b x) (hstep b x hb)

theorem any_assocSet_false {α : Type} (p : α → Bool) (m : List (String × α))
    (k : String) (v : α)
    (hm : m.any (fun kv => p kv.2) = false) (hv : p v = false) :
    (assocSet m k v).any (fun kv => p kv.2) = false := by
  induction m with
  | nil => simp [assocSet, hv]
  | cons hd rest ih =>
    obtain ⟨k', v'⟩ := hd
    simp only [List.any_cons, Bool.or_eq_false_iff] at hm
    by_cases h : k' = k
    · simp [assocSet, h, hv, hm.1, hm.2]
    · simp [assocSet, h, hm.1, ih hm.2]

theorem cmdHasBlack_setPixel (c : Cmd) (led : String) (col : List Int)
    (hc : cmdHasBlack c = false) (hcol : col ≠ [0, 0, 0]) :
    cmdHasBlack (setPixelInCmd c led col) = false := by
  cases c with
  | set_pixel_colors m =>
    simp only [setPixelInCmd, cmdHasBlack] at *
    exact any_assocSet_false (fun x => decide (x = [0, 0, 0])) m led col hc
      (decide_eq_false hcol)
  | set_animation a co => simp [setPixelInCmd, cmdHasBlack]

theorem hasBlackEntry_addPixel (p : List (String × Cmd)) (strip led : String)
    (col : List Int) (hp : hasBlackEntry p = false) (hcol : col ≠ [0, 0, 0]) :
    hasBlackEntry (addPixel p strip led col) = false := by
  induction p with
  | nil => simp [addPixel, hasBlackEntry, cmdHasBlack, hcol]
  | cons hd rest ih =>
    obtain ⟨k, v⟩ := hd
    simp only [hasBlackEntry, List.any_cons, Bool.or_eq_false_iff] at hp
    by_cases h : k = strip
    · simp only [addPixel, if_pos h, hasBlackEntry, List.any_cons,
        Bool.or_eq_false_iff]
      exact ⟨cmdHasBlack_setPixel v led col hp.1 hcol, hp.2⟩
    · simp only [addPixel, if_neg h, hasBlackEntry, List.any_cons,
        Bool.or_eq_false_iff]
      exact ⟨hp.1, ih hp.2⟩

theorem color_list_ne :
    ∀ c : Color, c ≠ ((0 : Int), (0 : Int), (0 : Int)) →
      [c.1, c.2.1, c.2.2] ≠ ([0, 0, 0] : List Int) := by
  rintro ⟨r, g, b⟩ h hc
  simp only [List.cons.injEq, and_true] at hc
  obtain ⟨h1, h2, h3⟩ := hc
  subst h1; subst h2; subst h3
  exact h rfl

theorem extractPayload_no_black (img : Image) :
    hasBlackEntry (extractPayload img) = false := by
  unfold extractPayload
  refine foldl_preserve (fun p => hasBlackEntry p = false) _ ?_ img.enum [] rfl
  intro p yrow hp
  refine foldl_preserve (fun p => hasBlackEntry p = false) _ ?_ yrow.2.enum p hp
  intro p' xc hp'
  by_cases hc : xc.2 ≠ ((0 : Int), (0 : Int), (0 : Int))
  · rw [if_pos hc]
    exact hasBlackEntry_addPixel p' _ _ _ hp' (color_list_ne xc.2 hc)
  · rw [if_neg hc]
    exact hp'

/-- The raster buffer of the C5 example: 6 wide, 3 tall, all black except
the pixel at x = 5, y = 2 with color (10, 20, 30). -/
def exampleBuffer : Image :=
  [List.replicate 6 (0, 0, 0),
   List.replicate 6 (0, 0, 0),
   [(0, 0, 0), (0, 0, 0), (0, 0, 0), (0, 0, 0), (0, 0, 0), (10, 20, 30)]]

/-- C5: extracting a payload from a raster buffer never emits an entry for
an exactly-black pixel, and the buffer whose only non-black pixel is at
x = 5, y = 2 with color (10, 20, 30) yields exactly the payload
keyed "2" with a `set_pixel_colors` map keyed "5" holding [10, 20, 30],
and no other keys. -/
theorem c5_black_pixels_never_emitted :
    (∀ img : Image, hasBlackEntry (extractPayload img) = false) ∧
    extractPayload exampleBuffer =
      [("2", Cmd.set_pixel_colors [("5", [10, 20, 30])])] :=
  ⟨fun img => extractPayload_no_black img, by decide⟩

/-- C6: `do_command` at a clear request. The clear branch of the source is
commented out, so `{"clear": {}}` falls through to the raw passthrough,
where the payload key "clear" hits `int("clear")` and raises ValueError:
no controller command is issued and no success is returned, contradicting
the documented clear path. -/
theorem c6_clear_request_raises :
    do_command 2 16 16 1 "1200" (fun _ _ => []) [("clear", PyVal.vDict [])] =
      ([], some "invalid literal for int() with base 10: clear") := by
  rfl

theorem checkColorTriple_ok_range (a b c : PyVal) (col : Int × Int × Int)
    (h : checkColorTriple a b c = .ok col) :
    0 ≤ col.1 ∧ col.1 ≤ 255 ∧ 0 ≤ col.2.1 ∧ col.2.1 ≤ 255 ∧
      0 ≤ col.2.2 ∧ col.2.2 ≤ 255 := by
  unfold checkColorTriple at h
  cases ha : pyIntOf a with
  | none => rw [ha] at h; simp at h
  | some r =>
    rw [ha] at h
    cases hb : pyIntOf b with
    | none => rw [hb] at h; simp at h
    | some g =>
      rw [hb] at h
      cases hcv : pyIntOf c with
      | none => rw [hcv] at h; simp at h
      | some bl =>
        rw [hcv] at h
        simp only at h
        by_cases hcond : 0 ≤ r ∧ r ≤ 255 ∧ 0 ≤ g ∧ g ≤ 255 ∧ 0 ≤ bl ∧ bl ≤ 255
        · rw [if_pos hcond] at h
          cases h
          exact hcond
        · rw [if_neg hcond] at h
          simp at h

theorem parseColor_ok_range (cd : List (String × PyVal)) (col : Int × Int × Int)
    (h : parseColor cd = .ok col) :
    0 ≤ col.1 ∧ col.1 ≤ 255 ∧ 0 ≤ col.2.1 ∧ col.2.1 ≤ 255 ∧
      0 ≤ col.2.2 ∧ col.2.2 ≤ 255 := by
  unfold parseColor at h
  split at h
  · cases h; norm_num
  · exact checkColorTriple_ok_range _ _ _ _ h
  · simp at h

theorem parse_display_command_parts {cd : List (String × PyVal)} {p : Params}
    (h : parse_display_command cd = .ok p) :
    parsePositions cd = .ok (p.x_position, p.y_position) ∧
      parseOffsets cd = .ok (p.x_offset, p.y_offset) ∧
      parseColor cd = .ok p.color ∧
      parseRotationField cd = .ok p.rotation := by
  unfold parse_display_command at h
  simp only [bind, Except.bind] at h
  cases h1 : parsePositions cd with
  | error e => rw [h1] at h; simp at h
  | ok pos =>
    rw [h1] at h
    simp only at h
    cases h2 : parseOffsets cd with
    | error e => rw [h2] at h; simp at h
    | ok offs =>
      rw [h2] at h
      simp only at h
      cases h3 : parseColor cd with
      | error e => rw [h3] at h; simp at h
      | ok col =>
        rw [h3] at h
        simp only at h
        cases h4 : parseRotationField cd with
        | error e => rw [h4] at h; simp at h
        | ok rot =>
          rw [h4] at h
          simp only [pure, Except.pure, Except.ok.injEq] at h
          subst h
          simp

/-- C7, counterexample: a display request with color [300, 0, 0] is
rejected by `_parse_display_command` with a range error; it is not clamped
to [255, 0, 0] and accepted as the claim states. -/
theorem c7_counterexample :
    parse_display_command
        [("x_position", PyVal.vInt 0), ("y_position", PyVal.vInt 0),
         ("color", PyVal.vList [PyVal.vInt 300, PyVal.vInt 0, PyVal.vInt 0])] =
      .error "Invalid color format: color values must be between 0 and 255" := by
  rfl

/-- C7 as amended: when a display request supplies a color component
outside [0, 255], `_parse_display_command` rejects the request with a
descriptive error rather than clamping; whenever parsing succeeds, every
component of the parsed color lies in [0, 255]. -/
theorem c7_parsed_color_in_range (cd : List (String × PyVal)) (p : Params)
    (h : parse_display_command cd = .ok p) :
    0 ≤ p.color.1 ∧ p.color.1 ≤ 255 ∧ 0 ≤ p.color.2.1 ∧ p.color.2.1 ≤ 255 ∧
      0 ≤ p.color.2.2 ∧ p.color.2.2 ≤ 255 :=
  parseColor_ok_range cd p.color (parse_display_command_parts h).2.2.1

/-- Witness for the amended C7 at a request with color (10, 20, 30). -/
theorem c7_parsed_color_in_range_witness :
    0 ≤ (Params.mk 1 2 0 0 (10, 20, 30) 0).color.1 ∧
      (Params.mk 1 2 0 0 (10, 20, 30) 0).color.1 ≤ 255 ∧
      0 ≤ (Params.mk 1 2 0 0 (10, 20, 30) 0).color.2.1 ∧
      (Params.mk 1 2 0 0 (10, 20, 30) 0).color.2.1 ≤ 255 ∧
      0 ≤ (Params.mk 1 2 0 0 (10, 20, 30) 0).color.2.2 ∧
      (Params.mk 1 2 0 0 (10, 20, 30) 0).color.2.2 ≤ 255 :=
  c7_parsed_color_in_range
    [("x_position", PyVal.vInt 1), ("y_position", PyVal.vInt 2),
     ("color", PyVal.vList [PyVal.vInt 10, PyVal.vInt 20, PyVal.vInt 30])]
    (Params.mk 1 2 0 0 (10, 20, 30) 0) rfl

/-- C8: a text or time display request whose parameters fail validation
(missing or non-numeric positions, non-numeric offsets, malformed color,
non-numeric rotation — any `_parse_display_command` error — or, for the
text branch, a missing text), makes `do_command` report a descriptive
error with an empty event trace: no board `do_command` call and no sleep
is ever issued for that request. -/
theorem c8_validation_failure_no_hardware (numBoards : Nat) (gw gh : Int)
    (t : ℚ) (timeText : String)
    (render : String → Params → List (String × PyVal))
    (command tcd : List (String × PyVal))
    (h : (lookupAssoc command "text" = some (PyVal.vDict tcd) ∧
            ((∃ e, parse_display_command tcd = .error e) ∨
              lookupAssoc tcd "text" = none)) ∨
         (lookupAssoc command "text" = none ∧
            lookupAssoc command "time" = some (PyVal.vDict tcd) ∧
            (∃ e, parse_display_command tcd = .error e))) :
    (do_command numBoards gw gh t timeText render command).1 = [] ∧
      ((do_command numBoards gw gh t timeText render command).2).isSome := by
  unfold do_command
  rcases h with ⟨htext, hval⟩ | ⟨hnotext, htime, e, he⟩
  · rw [htext]
    simp only
    rcases hval with ⟨e, he⟩ | hmiss
    · rw [he]
      simp
    · cases hp : parse_display_command tcd with
      | error e => simp
      | ok params =>
        rw [hmiss]
        simp
  · rw [hnotext, htime]
    simp only
    rw [he]
    simp

/-- Witness for C8: a text request missing x_position/y_position yields an
error and an empty trace. -/
theorem c8_validation_failure_no_hardware_witness :
    (do_command 2 16 16 1 "1200" (fun _ _ => []) [("text", PyVal.vDict [])]).1 = [] ∧
      ((do_command 2 16 16 1 "1200" (fun _ _ => []) [("text", PyVal.vDict [])]).2).isSome :=
  c8_validation_failure_no_hardware 2 16 16 1 "1200" (fun _ _ => [])
    [("text", PyVal.vDict [])] []
    (Or.inl ⟨rfl, Or.inl ⟨"x_position and y_position are required", rfl⟩⟩)

/-- C9: an integer rotation other than 90, 180 and 270 applies no rotation
at all — `text_to_led_payload` produces exactly the rotation-0 result —
and `_parse_display_command` accepts any integer rotation without a
validation error, so no error is raised anywhere in the pipeline for an
out-of-set rotation such as 45 or -90. -/
theorem c9_out_of_set_rotation_ignored :
    (∀ (renderText : String → Int → Int → Color → Image) (gw gh : Nat)
        (text : String) (xo yo : Int) (color : Color) (r : Int) (xp yp : Int),
      r ≠ 90 → r ≠ 180 → r ≠ 270 →
      text_to_led_payload renderText gw gh text xo yo color r xp yp =
        text_to_led_payload renderText gw gh text xo yo color 0 xp yp) ∧
    (∀ (cd : List (String × PyVal)) (r : Int),
      lookupAssoc cd "rotation" = some (PyVal.vInt r) →
      parseRotationField cd = .ok r) := by
  constructor
  · intro renderText gw gh text xo yo color r xp yp h90 h180 h270
    unfold text_to_led_payload
    simp [h90, h180, h270]
  · intro cd r hl
    unfold parseRotationField
    rw [hl]
    rfl

/-- Witness for C9 at rotation 45: the payload equals the rotation-0
payload and the rotation field parses without error. -/
theorem c9_out_of_set_rotation_ignored_witness :
    (text_to_led_payload (fun _ _ _ _ => []) 4 4 "A" 0 0 (255, 255, 255) 45 0 0 =
      text_to_led_payload (fun _ _ _ _ => []) 4 4 "A" 0 0 (255, 255, 255) 0 0 0) ∧
    parseRotationField [("rotation", PyVal.vInt 45)] = .ok 45 :=
  ⟨c9_out_of_set_rotation_ignored.1 (fun _ _ _ _ => []) 4 4 "A" 0 0
      (255, 255, 255) 45 0 0 (by norm_num) (by norm_num) (by norm_num),
    c9_out_of_set_rotation_ignored.2 [("rotation", PyVal.vInt 45)] 45 rfl⟩

/-- C10: when exactly one of x_offset and y_offset is supplied,
`_parse_display_command` sets both offsets to 0, silently discarding the
supplied value: `parseOffsets` yields (0, 0) and any successful parse
carries zero offsets. -/
theorem c10_single_offset_discarded (cd : List (String × PyVal))
    (h : ((lookupAssoc cd "x_offset").isSome ∧ lookupAssoc cd "y_offset" = none) ∨
         (lookupAssoc cd "x_offset" = none ∧ (lookupAssoc cd "y_offset").isSome)) :
    parseOffsets cd = .ok (0, 0) ∧
      ∀ p : Params, parse_display_command cd = .ok p →
        p.x_offset = 0 ∧ p.y_offset = 0 := by
  have hoff : parseOffsets cd = .ok (0, 0) := by
    unfold parseOffsets
    rcases h with ⟨hx, hy⟩ | ⟨hx, hy⟩
    · rcases Option.isSome_iff_exists.mp hx with ⟨xv, hxv⟩
      rw [hxv, hy]
    · rcases Option.isSome_iff_exists.mp hy with ⟨yv, hyv⟩
      rw [hx, hyv]
  refine ⟨hoff, ?_⟩
  intro p hp
  have hparts := (parse_display_command_parts hp).2.1
  rw [hoff] at hparts
  have : ((0 : Int), (0 : Int)) = (p.x_offset, p.y_offset) :=
    Except.ok.inj hparts
  have h1 : p.x_offset = 0 := (congrArg Prod.fst this).symm
  have h2 : p.y_offset = 0 := (congrArg Prod.snd this).symm
  exact ⟨h1, h2⟩

/-- Witness for C10: a request supplying only x_offset = 4 parses with
both offsets zero. -/
theorem c10_single_offset_discarded_witness :
    parseOffsets
        [("x_position", PyVal.vInt 1), ("y_position", PyVal.vInt 2),
         ("x_offset", PyVal.vInt 4)] = .ok (0, 0) ∧
      ∀ p : Params,
        parse_display_command
            [("x_position", PyVal.vInt 1), ("y_position", PyVal.vInt 2),
             ("x_offset", PyVal.vInt 4)] = .ok p →
          p.x_offset = 0 ∧ p.y_offset = 0 :=
  c10_single_offset_discarded
    [("x_position", PyVal.vInt 1), ("y_position", PyVal.vInt 2),
     ("x_offset", PyVal.vInt 4)]
    (Or.inl ⟨rfl, rfl⟩)

end MultiLedGrid
